import Mathlib

/-!
# Verification of the goscript pipeline core

A shallow embedding, in Lean 4, of the concurrency/orchestration core of the
goscript repository: the message envelope (`pipeline.Msg`), the channel-backed
pipe (`pipeline.ChannelPipe`, `SafeClose`, `NewChanPipe`), the linear
orchestrator (`Pipeline.Start`), and the two stage decorators
(`routines.ParallelRoutine.Run`, `routines.DebounceRoutine.Start`) together
with the typed transform stages (`routines.TransformRoutine.Start`,
`routines.ReduceRoutine.Start`).

Concurrency is collapsed to its functional core: Go channels are FIFO queues,
so the loop body of a stage becomes a recursive function over the list of messages
it will receive; scheduler nondeterminism (which non-blocking send attempts
fail, when a cancellation race is lost) is made an explicit parameter of the
embedded function instead of being resolved by a runtime.
-/

namespace GoScript

/-- The Go `any` payload (`Msg.Data`), embedded as a closed sum of the payload
shapes exercised here.  A runtime type assertion `msg.Data.(T)` becomes a
partial projection `Data → Option τ`. -/
inductive Data where
  | str (s : String)
  | num (n : Int)
  deriving DecidableEq, Repr

/-- `pipeline.Msg` from `internal/pipeline/types.go`: an identifier plus an
opaque payload. -/
structure Msg where
  id : String
  data : Data
  deriving DecidableEq, Repr

/-- The `msg.Data.(string)` type assertion. -/
def Data.asStr : Data → Option String
  | .str s => some s
  | .num _ => none

/-- The `msg.Data.(int)` type assertion. -/
def Data.asNum : Data → Option Int
  | .str _ => none
  | .num n => some n

/-! ## `internal/pipeline/channel.go`: the channel pipe

A Go channel is modelled by its capacity, its buffered contents and a closed
flag; the `done` signal is a zero-capacity channel used only for close/receive,
so only its closed flag matters.  `doneFired` counts how many times the `done`
channel actually transitioned from open to closed, so that "`Done()` fires
exactly once" is expressible. -/

/-- State of one Go channel: buffer capacity (fixed at `make`), current
buffered messages, and whether `close` has been called on it. -/
structure Chan where
  cap : Nat
  buf : List Msg
  closed : Bool
  deriving DecidableEq, Repr

/-- `make(chan Msg, c)`: empty open channel of capacity `c`. -/
def Chan.make (c : Nat) : Chan := { cap := c, buf := [], closed := false }

/-- A non-blocking send (the `default`-guarded `select` case
`subpipes[i].In() <- data` in `parallel.go`): succeeds iff the buffer has
room, returning the updated channel. -/
def Chan.trySend (ch : Chan) (m : Msg) : Option Chan :=
  if ch.buf.length < ch.cap then some { ch with buf := ch.buf ++ [m] } else none

/-- `pipeline.ChannelPipe`: inbound channel, outbound channel, `done` signal.
`doneFired` instruments how many times the `done` signal was actually
closed (fired). -/
structure ChannelPipe where
  inCh : Chan
  outCh : Chan
  doneClosed : Bool
  doneFired : Nat
  deriving DecidableEq, Repr

/-- `NewChanPipe` from `channel.go`: `in` and `out` are `make(chan Msg, 1)`,
`done` is `make(chan struct{})`, open. -/
def NewChanPipe : ChannelPipe :=
  { inCh := Chan.make 1, outCh := Chan.make 1, doneClosed := false, doneFired := 0 }

/-- `SafeClose` on the closed flag of a channel: `close(ch)` panics when the
channel is already closed, the deferred `recover` swallows the panic and
reports `justClosed = false`; otherwise the channel is now closed and
`justClosed = true`.  Returns (justClosed, new closed flag). -/
def SafeClose (closed : Bool) : Bool × Bool :=
  if closed then (false, true) else (true, true)

/-- `ChannelPipe.Close` from `channel.go`: `SafeClose(c.done)` then
`SafeClose(c.out)`, always `return nil`.  Result is the new pipe state and the
returned error (always `none`). -/
def ChannelPipe.Close (p : ChannelPipe) : ChannelPipe × Option String :=
  let d := SafeClose p.doneClosed
  let o := SafeClose p.outCh.closed
  ({ p with
      doneClosed := d.2
      doneFired := p.doneFired + (if d.1 then 1 else 0)
      outCh := { p.outCh with closed := o.2 } },
   none)

/-- `Close` iterated `n` times (state component only). -/
def ChannelPipe.closeIter : Nat → ChannelPipe → ChannelPipe
  | 0, p => p
  | n + 1, p => ChannelPipe.closeIter n (p.Close).1

/-! ## `internal/routines/debounce.go`: `DebounceRoutine.Start`

The loop `for msg := range pipe.In() { time.Sleep(d); select { case <-ctx.Done():
return nil; case pipe.Out() <- msg } }` reads one message at a time, sleeps,
then races the emission against cancellation.  The race outcome is a
parameter: `cancelAt = some k` means the cancellation branch of the `select`
wins exactly at the `k`-th iteration (0-based); `none` means cancellation
never wins (absent cancellation).  `closed` records that the deferred
`pipe.Close()` ran (it runs on every return path). -/

/-- Result of the `Start` call of a stage: the messages written to `pipe.Out()` in
order, whether the deferred `pipe.Close()` ran, and the returned error. -/
structure StageResult where
  out : List Msg
  closed : Bool
  err : Option String
  deriving DecidableEq, Repr

/-- The loop body of `DebounceRoutine.Start`: emissions as a function of
the inbound message list and the cancellation race outcome. -/
def debounceLoop : Option Nat → List Msg → List Msg
  | _, [] => []
  | none, m :: rest => m :: debounceLoop none rest
  | some 0, _ :: _ => []
  | some (k + 1), m :: rest => m :: debounceLoop (some k) rest

/-- `DebounceRoutine.Start` from `debounce.go`: loop until `pipe.In()` is
exhausted (or the cancellation race is lost), with the deferred
`pipe.Close()`, returning `nil` on every path. -/
def DebounceRoutine.Start (cancelAt : Option Nat) (input : List Msg) : StageResult :=
  { out := debounceLoop cancelAt input, closed := true, err := none }

/-! ## `internal/routines/logic.go`: the typed transform stages

`TransformRoutine[T, V]` holds `transform : T → V`; its `Start` loop performs
the `msg.Data.(T)` assertion, forwarding the message unchanged on failure and
otherwise emitting `Msg{ID: msg.ID, Data: transform(val)}`.  The assertion is
embedded as `cast : Data → Option τ` and the re-injection of the transform result
as `f : τ → Data`. -/

/-- The loop of `TransformRoutine.Start`, absent cancellation: pass through on
type-assertion failure, else transform keeping the id. -/
def transformLoop {τ : Type} (cast : Data → Option τ) (f : τ → Data) :
    List Msg → List Msg
  | [] => []
  | m :: rest =>
    match cast m.data with
    | none => m :: transformLoop cast f rest
    | some v => { id := m.id, data := f v } :: transformLoop cast f rest

/-- `TransformRoutine.Start` from `logic.go`, absent cancellation. -/
def TransformRoutine.Start {τ : Type} (cast : Data → Option τ) (f : τ → Data)
    (input : List Msg) : StageResult :=
  { out := transformLoop cast f input, closed := true, err := none }

/-- The action of `TransformRoutine.Start` on one message: pass through on
type-assertion failure, else transform keeping the id. -/
def transformOne {τ : Type} (cast : Data → Option τ) (f : τ → Data) (m : Msg) : Msg :=
  match cast m.data with
  | none => m
  | some v => { id := m.id, data := f v }

/-- The accumulation loop of `ReduceRoutine.Start`: on type-assertion failure
it logs and `continue`s — the message is neither folded nor forwarded. -/
def reduceLoop {τ α : Type} (cast : Data → Option τ) (reduce : α → τ → α) :
    α → List Msg → α
  | acc, [] => acc
  | acc, m :: rest =>
    match cast m.data with
    | none => reduceLoop cast reduce acc rest
    | some v => reduceLoop cast reduce (reduce acc v) rest

/-- `ReduceRoutine.Start` from `logic.go`, absent cancellation: fold the
well-typed payloads, then emit a single message with a fresh id
(`uuid.NewString()`, passed in as `freshId`) carrying the reduced value. -/
def ReduceRoutine.Start {τ α : Type} (cast : Data → Option τ)
    (reduce : α → τ → α) (init : α) (inject : α → Data) (freshId : String)
    (input : List Msg) : StageResult :=
  { out := [{ id := freshId, data := inject (reduceLoop cast reduce init input) }],
    closed := true, err := none }

/-! ## `internal/routines/parallel.go`: `ParallelRoutine.Run`

The fan-out task keeps a `roundRobinIndex`.  For each inbound message it runs
a retry loop: one `select` attempt (non-blocking send to
`subpipes[roundRobinIndex].In()`, with a `default` branch), then
`roundRobinIndex = (roundRobinIndex + 1) % maxConcurrency` unconditionally,
breaking out only after a successful send.  Whether an attempt succeeds
depends on the scheduler (is the capacity-1 sub-pipe buffer free?); the
embedding takes that nondeterminism as a parameter: `sched i` is the number
of failed attempts before the `i`-th message is accepted.  Absent
cancellation every message is eventually accepted, so the fuel is finite. -/

/-- The retry loop for one message, from `parallel.go`: starting at index
`idx` with `k` failing attempts before the accepting one, return
(index of the sub-pipe that accepted the message, next round-robin index).
Each attempt, failed or successful, advances the index by one mod `W`. -/
def tryDeliver (W : Nat) : Nat → Nat → Nat × Nat
  | idx, 0 => (idx, (idx + 1) % W)
  | idx, k + 1 => tryDeliver W ((idx + 1) % W) k

/-- The fan-out task of `ParallelRoutine.Run`: assign each message of the
inbound list to a sub-pipe, threading the message counter `i` (for the
schedule) and the round-robin index. -/
def fanOut (W : Nat) (sched : Nat → Nat) : Nat → Nat → List Msg → List (Nat × Msg)
  | _, _, [] => []
  | i, idx, m :: rest =>
    let d := tryDeliver W idx (sched i)
    (d.1, m) :: fanOut W sched (i + 1) d.2 rest

/-- The inbound stream of worker `w`: the messages the fan-out assigned to
sub-pipe `w`, in order. -/
def workerInput (w : Nat) (assigns : List (Nat × Msg)) : List Msg :=
  (assigns.filter (fun p => p.1 == w)).map Prod.snd

/-- `ParallelRoutine.Run` from `parallel.go`, as the multiset of messages the
fan-in tasks write to the parent `pipe.Out()`: each of the `W` workers runs
the inner stage (here a one-in-one-out map `f`) over its own sub-pipe inbound
stream and the per-sub-pipe fan-in task forwards everything to the parent
outbound queue; the parent multiset is the sum over workers, which is all the
fan-in interleaving leaves observable. -/
def ParallelRoutine.Run (W : Nat) (f : Msg → Msg) (sched : Nat → Nat)
    (input : List Msg) : Multiset Msg :=
  ∑ w in Finset.range W, ((workerInput w (fanOut W sched 0 0 input)).map f : Multiset Msg)

/-! ## `internal/pipeline/pipeline.go`: `Pipeline.Start`

`Start` allocates one pipe per chained routine and splices them
(`previousPipe.Chain(stepPipe)`), launches each routine against its pipe
(logging, never returning, its error), launches a forwarder from the external
pipe inbound queue into the head pipe and one from the last step pipe into
the external outbound queue (`defer pipe.Close()`), blocks on `pipe.Done()`
and returns `nil`.  Channels are FIFO, so absent cancellation each forwarder
is the identity on the message sequence and the chain is sequential function
composition of the stages.  A stage is embedded as
`List Msg → List Msg × Option String`: its output stream and its returned
error. -/

/-- A forwarding task of `Pipeline.Start`
(`for msg := range src { select { case <-ctx.Done(): return; case dst <- msg } }`),
absent cancellation: copies the stream in order. -/
def forwardLoop : List Msg → List Msg
  | [] => []
  | m :: rest => m :: forwardLoop rest

/-- Result of `Pipeline.Start`: the messages forwarded into the external
outbound queue, the stage errors that were logged, whether the deferred
`externalPipe.Close()` ran (this is what fires `Done()`), and the value
`Start` returns. -/
structure StartOutcome where
  out : List Msg
  logged : List String
  externalClosed : Bool
  err : Option String
  deriving DecidableEq, Repr

/-- The per-routine goroutine body of `Pipeline.Start`:
`err := routine.Start(ctx, stepPipe); if err != nil { slog.Error(...) }` —
the error goes to the log, the output stream to the next pipe. -/
def logStep (acc : List Msg × List String)
    (r : List Msg → List Msg × Option String) : List Msg × List String :=
  match r acc.1 with
  | (o, some e) => (o, acc.2 ++ [e])
  | (o, none) => (o, acc.2)

/-- `Pipeline.Start` from `pipeline.go`, absent cancellation: inbound
forwarder, the chained routines in order, outbound forwarder with its
deferred `pipe.Close()`, then `return nil` once `pipe.Done()` has fired. -/
def Pipeline.Start (routines : List (List Msg → List Msg × Option String))
    (input : List Msg) : StartOutcome :=
  let chained := routines.foldl logStep (forwardLoop input, [])
  { out := forwardLoop chained.1, logged := chained.2,
    externalClosed := true, err := none }

/-! ## Concrete sample values used by witness theorems -/

/-- A sample message. -/
def msgA : Msg := { id := "a", data := Data.num 1 }

/-- A sample message. -/
def msgB : Msg := { id := "b", data := Data.num 2 }

/-- A sample message. -/
def msgC : Msg := { id := "c", data := Data.str "x" }

/-- A sample one-in-one-out inner stage: increment numeric payloads. -/
def sampleF (m : Msg) : Msg :=
  { id := m.id, data := match m.data with
      | Data.num n => Data.num (n + 1)
      | d => d }

/-- A sample fan-out failure schedule: message `i` is rejected `i` times
before being accepted. -/
def sampleSched (i : Nat) : Nat := i

/-! ## Helper lemmas -/

lemma Close_inCh (p : ChannelPipe) : ((p.Close).1).inCh = p.inCh := rfl

lemma closeIter_inCh : ∀ (n : Nat) (p : ChannelPipe),
    (ChannelPipe.closeIter n p).inCh = p.inCh
  | 0, _ => rfl
  | n + 1, p => by
    rw [ChannelPipe.closeIter, closeIter_inCh n, Close_inCh]

lemma Close_of_doneClosed (p : ChannelPipe) (h : p.doneClosed = true) :
    (p.Close).1.doneFired = p.doneFired ∧ (p.Close).1.doneClosed = true := by
  simp [ChannelPipe.Close, SafeClose, h]

lemma closeIter_fired : ∀ (n : Nat) (p : ChannelPipe), p.doneClosed = true →
    (ChannelPipe.closeIter n p).doneFired = p.doneFired
  | 0, _, _ => rfl
  | n + 1, p, h => by
    rw [ChannelPipe.closeIter, closeIter_fired n _ (Close_of_doneClosed p h).2,
      (Close_of_doneClosed p h).1]

lemma debounceLoop_none : ∀ input : List Msg, debounceLoop none input = input
  | [] => rfl
  | _ :: rest => by rw [debounceLoop, debounceLoop_none rest]

lemma debounceLoop_some : ∀ (input : List Msg) (k : Nat), k < input.length →
    debounceLoop (some k) input = input.take k
  | [], _, h => by simp at h
  | _ :: _, 0, _ => rfl
  | m :: rest, k + 1, h => by
    rw [debounceLoop, debounceLoop_some rest k (by simpa using h)]
    rfl

lemma forwardLoop_id : ∀ l : List Msg, forwardLoop l = l
  | [] => rfl
  | _ :: rest => by rw [forwardLoop, forwardLoop_id rest]

lemma foldl_logStep_map (fs : List (Msg → Msg)) :
    ∀ (l : List Msg) (log : List String),
    List.foldl logStep (l, log) (fs.map (fun f => fun s => (s.map f, none)))
      = (l.map (fun m => fs.foldl (fun x f => f x) m), log) := by
  induction fs with
  | nil => intro l log; simp
  | cons f fs ih =>
    intro l log
    simp only [List.map_cons, List.foldl_cons, logStep]
    rw [ih]
    simp [List.map_map, Function.comp]

lemma transformLoop_eq_map {τ : Type} (cast : Data → Option τ) (f : τ → Data) :
    ∀ input : List Msg, transformLoop cast f input = input.map (transformOne cast f)
  | [] => rfl
  | m :: rest => by
    cases h : cast m.data with
    | none => simp [transformLoop, transformOne, h, transformLoop_eq_map cast f rest]
    | some v => simp [transformLoop, transformOne, h, transformLoop_eq_map cast f rest]

lemma reduceLoop_filter {τ α : Type} (cast : Data → Option τ) (reduce : α → τ → α) :
    ∀ (init : α) (input : List Msg),
    reduceLoop cast reduce init input
      = reduceLoop cast reduce init (input.filter (fun m => (cast m.data).isSome))
  | init, [] => rfl
  | init, m :: rest => by
    cases h : cast m.data with
    | none =>
      simp [reduceLoop, List.filter_cons, h, reduceLoop_filter cast reduce init rest]
    | some v =>
      simp [reduceLoop, List.filter_cons, h,
        reduceLoop_filter cast reduce (reduce init v) rest]

lemma tryDeliver_fst_lt (W : Nat) : ∀ (k idx : Nat), idx < W → (tryDeliver W idx k).1 < W
  | 0, _, h => h
  | k + 1, idx, h => by
    rw [tryDeliver]
    exact tryDeliver_fst_lt W k ((idx + 1) % W) (Nat.mod_lt _ (by omega))

lemma tryDeliver_snd_lt (W : Nat) : ∀ (k idx : Nat), 0 < W → (tryDeliver W idx k).2 < W
  | 0, _, h => Nat.mod_lt _ h
  | k + 1, idx, h => by
    rw [tryDeliver]
    exact tryDeliver_snd_lt W k ((idx + 1) % W) h

lemma fanOut_fst_lt (W : Nat) (sched : Nat → Nat) :
    ∀ (input : List Msg) (i idx : Nat), idx < W →
      ∀ p ∈ fanOut W sched i idx input, p.1 < W
  | [], _, _, _ => by intro p hp; simp [fanOut] at hp
  | m :: rest, i, idx, h => by
    intro p hp
    simp only [fanOut] at hp
    rcases List.mem_cons.mp hp with h1 | h2
    · subst h1; exact tryDeliver_fst_lt W (sched i) idx h
    · exact fanOut_fst_lt W sched rest (i + 1) _
        (tryDeliver_snd_lt W (sched i) idx (by omega)) p h2

lemma fanOut_map_snd (W : Nat) (sched : Nat → Nat) :
    ∀ (input : List Msg) (i idx : Nat),
      (fanOut W sched i idx input).map Prod.snd = input
  | [], _, _ => rfl
  | m :: rest, i, idx => by
    simp [fanOut, fanOut_map_snd W sched rest (i + 1)]

lemma sum_workerInput (W : Nat) (f : Msg → Msg) :
    ∀ l : List (Nat × Msg), (∀ p ∈ l, p.1 < W) →
    (∑ w in Finset.range W, (((workerInput w l).map f : List Msg) : Multiset Msg))
      = (((l.map Prod.snd).map f : List Msg) : Multiset Msg)
  | [], _ => by simp [workerInput]
  | a :: l, h => by
    have ha : a.1 < W := h a (by simp)
    have hl : ∀ p ∈ l, p.1 < W := fun p hp => h p (by simp [hp])
    have key : ∀ w : Nat,
        (((workerInput w (a :: l)).map f : List Msg) : Multiset Msg)
          = (if a.1 = w then ({f a.2} : Multiset Msg) else 0)
            + (((workerInput w l).map f : List Msg) : Multiset Msg) := by
      intro w
      by_cases hw : a.1 = w
      · simp [workerInput, List.filter_cons, hw]
      · simp [workerInput, List.filter_cons, hw]
    rw [Finset.sum_congr rfl (fun w _ => key w), Finset.sum_add_distrib,
      sum_workerInput W f l hl,
      Finset.sum_ite_eq (Finset.range W) a.1 (fun _ => ({f a.2} : Multiset Msg))]
    simp [Finset.mem_range.mpr ha]

/-! ## Claim theorems -/

/-- C1: for every finite input and every worker count `W ≥ 1`, running
`ParallelRoutine.Run` with an inner stage mapping each message to one output,
absent cancellation and for every fan-out failure schedule, the output
multiset equals the multiset of transformed inputs: each input message is
delivered to exactly one worker and appears in the output exactly once, with
no duplication and no loss. -/
theorem parallel_completeness (W : Nat) (hW : 1 ≤ W) (f : Msg → Msg)
    (sched : Nat → Nat) (input : List Msg) :
    ParallelRoutine.Run W f sched input
      = ((input.map f : List Msg) : Multiset Msg) := by
  unfold ParallelRoutine.Run
  rw [sum_workerInput W f _ (fanOut_fst_lt W sched input 0 0 (by omega)),
    fanOut_map_snd]

/-- Witness for C1: two workers, three concrete messages, a schedule with
failing attempts. -/
theorem parallel_completeness_witness :
    1 ≤ 2 ∧ ParallelRoutine.Run 2 sampleF sampleSched [msgA, msgB, msgC]
      = (([msgA, msgB, msgC].map sampleF : List Msg) : Multiset Msg) :=
  ⟨by decide, parallel_completeness 2 (by decide) sampleF sampleSched [msgA, msgB, msgC]⟩

/-- C2: `ChannelPipe.Close` never panics (modelled by `SafeClose` recovering)
and never returns an error, also on repeated calls, and after `n ≥ 1` closes
of a fresh pipe the `done` signal has fired exactly once: later calls are
no-ops on the already-closed done signal and outbound queue. -/
theorem close_idempotent_done_fires_once (p : ChannelPipe) (n : Nat) (hn : 1 ≤ n) :
    (p.Close).2 = none ∧ (((p.Close).1).Close).2 = none ∧
    (ChannelPipe.closeIter n NewChanPipe).doneFired = 1 := by
  refine ⟨rfl, rfl, ?_⟩
  obtain ⟨m, rfl⟩ : ∃ m, n = m + 1 := ⟨n - 1, by omega⟩
  rw [ChannelPipe.closeIter, closeIter_fired m _ (by decide)]
  decide

/-- Witness for C2: two closes of a fresh pipe. -/
theorem close_idempotent_done_fires_once_witness :
    1 ≤ 2 ∧ ((NewChanPipe.Close).2 = none ∧ (((NewChanPipe.Close).1).Close).2 = none ∧
      (ChannelPipe.closeIter 2 NewChanPipe).doneFired = 1) :=
  ⟨by decide, close_idempotent_done_fires_once NewChanPipe 2 (by decide)⟩

/-- C3: feeding a sequence of messages through `Pipeline.Start` with a chain
of pure one-in-one-out stages yields, absent cancellation, the input sequence
with each element transformed by the stages in chaining order: the Pipeline
itself introduces no reordering. -/
theorem pipeline_preserves_order (fs : List (Msg → Msg)) (input : List Msg) :
    (Pipeline.Start (fs.map (fun f => fun s => (s.map f, none))) input).out
      = input.map (fun m => fs.foldl (fun x f => f x) m) := by
  simp only [Pipeline.Start]
  rw [forwardLoop_id input, foldl_logStep_map fs input []]
  exact forwardLoop_id _

/-- C4: `Pipeline.Start` always returns `nil`, for every list of chained
stages and every input — including stages that return an error: such errors
are only logged, and `Start` returns after the external pipe was closed
(which fires its `Done()`). -/
theorem pipeline_start_returns_nil
    (routines : List (List Msg → List Msg × Option String)) (input : List Msg)
    (e : String) :
    (Pipeline.Start routines input).err = none ∧
    (Pipeline.Start routines input).externalClosed = true ∧
    (Pipeline.Start [fun l => (l, some e)] input).logged = [e] ∧
    (Pipeline.Start [fun l => (l, some e)] input).err = none := by
  refine ⟨rfl, rfl, ?_, rfl⟩
  simp [Pipeline.Start, logStep]

/-- C5 counterexample: `ReduceRoutine.Start` (one of the typed transforms the
claim covers) does not forward a type-mismatched message unchanged: feeding
the single mismatched message `{id := a, data := str x}` into an integer-sum
reduce yields only the reduced message under a fresh id — the mismatched
message is dropped, not passed through. -/
theorem reduce_drops_mismatched_counterexample :
    ({ id := "a", data := Data.str "x" } : Msg) ∈
        ([{ id := "a", data := Data.str "x" }] : List Msg) ∧
    Data.asNum (Data.str "x") = none ∧
    ({ id := "a", data := Data.str "x" } : Msg) ∉
      (ReduceRoutine.Start Data.asNum (fun (a : Int) v => a + v) 0 Data.num "u"
        [{ id := "a", data := Data.str "x" }]).out := by
  decide

/-- C5 amended: `TransformRoutine.Start` forwards a type-mismatched message
unchanged downstream (same id, same payload, same position), but
`ReduceRoutine.Start` does not: it skips mismatched messages entirely — its
only output is the single reduced message under a fresh id, and the fold sees
exactly the messages whose payload passes the type assertion. -/
theorem transform_passes_reduce_drops {τ α : Type} (cast : Data → Option τ)
    (f : τ → Data) (reduce : α → τ → α) (init : α) (inject : α → Data)
    (freshId : String) (input : List Msg) (m : Msg) (hm : cast m.data = none) :
    (TransformRoutine.Start cast f input).out = input.map (transformOne cast f) ∧
    transformOne cast f m = m ∧
    (ReduceRoutine.Start cast reduce init inject freshId input).out
      = [{ id := freshId, data := inject (reduceLoop cast reduce init input) }] ∧
    reduceLoop cast reduce init input
      = reduceLoop cast reduce init (input.filter (fun x => (cast x.data).isSome)) := by
  refine ⟨transformLoop_eq_map cast f input, ?_, rfl,
    reduceLoop_filter cast reduce init input⟩
  simp [transformOne, hm]

/-- Witness for the amended C5: a concrete mismatched message passes through
the transform unchanged. -/
theorem transform_passes_reduce_drops_witness :
    Data.asNum msgC.data = none ∧ transformOne Data.asNum Data.num msgC = msgC :=
  ⟨by decide,
    (transform_passes_reduce_drops Data.asNum Data.num (fun (a : Int) v => a + v) 0
      Data.num "u" [msgC] msgC (by decide)).2.1⟩

/-- C6: in the fan-out retry loop of `ParallelRoutine.Run`, the round-robin
index advances by one mod `W` after every send attempt, failed or successful:
starting from index `idx < W` with `k` failed attempts, attempt `j` probes
sub-pipe `(idx + j) % W`, the message is accepted by sub-pipe `(idx + k) % W`,
and the next message starts one past the accepting index; the fan-out step for
one message is exactly this delivery followed by the rest of the loop. -/
theorem roundRobin_advances_every_attempt (W idx k : Nat) (h : idx < W)
    (sched : Nat → Nat) (i : Nat) (m : Msg) (rest : List Msg) :
    tryDeliver W idx k = ((idx + k) % W, (idx + k + 1) % W) ∧
    fanOut W sched i idx (m :: rest)
      = ((idx + sched i) % W, m)
        :: fanOut W sched (i + 1) ((idx + sched i + 1) % W) rest := by
  have main : ∀ (k idx : Nat), idx < W →
      tryDeliver W idx k = ((idx + k) % W, (idx + k + 1) % W) := by
    intro k
    induction k with
    | zero =>
      intro idx h
      simp [tryDeliver, Nat.mod_eq_of_lt h]
    | succ k ih =>
      intro idx h
      have hlt : (idx + 1) % W < W := Nat.mod_lt _ (by omega)
      rw [tryDeliver, ih _ hlt]
      have e1 : ((idx + 1) % W + k) % W = (idx + (k + 1)) % W := by
        rw [Nat.mod_add_mod]
        congr 1
        omega
      have e2 : ((idx + 1) % W + k + 1) % W = (idx + (k + 1) + 1) % W := by
        have : (idx + 1) % W + k + 1 = (idx + 1) % W + (k + 1) := by omega
        rw [this, Nat.mod_add_mod]
        congr 1
        omega
      rw [e1, e2]
  refine ⟨main k idx h, ?_⟩
  simp only [fanOut, main (sched i) idx h]

/-- Witness for C6: three workers, starting index 1, four failed attempts. -/
theorem roundRobin_advances_every_attempt_witness :
    1 < 3 ∧ (tryDeliver 3 1 4 = ((1 + 4) % 3, (1 + 4 + 1) % 3) ∧
      fanOut 3 sampleSched 0 1 [msgA]
        = ((1 + sampleSched 0) % 3, msgA)
          :: fanOut 3 sampleSched (0 + 1) ((1 + sampleSched 0 + 1) % 3) []) :=
  ⟨by decide, roundRobin_advances_every_attempt 3 1 4 (by decide) sampleSched 0 msgA []⟩

/-- C7: absent cancellation, `DebounceRoutine.Start` emits every inbound
message exactly once and in the input order (its output sequence is the input
sequence), closes the pipe after the inbound queue is exhausted, and returns
`nil`. -/
theorem debounce_emits_all_in_order (input : List Msg) :
    (DebounceRoutine.Start none input).out = input ∧
    (DebounceRoutine.Start none input).closed = true ∧
    (DebounceRoutine.Start none input).err = none :=
  ⟨debounceLoop_none input, rfl, rfl⟩

/-- C8: if the cancellation race is lost at iteration `k`, `DebounceRoutine.Start`
returns (with `nil`) without emitting the message currently held: the output is
exactly the first `k` messages, the `k`-th message is dropped and nothing after
it is emitted. -/
theorem debounce_cancel_drops_current (input : List Msg) (k : Nat)
    (h : k < input.length) :
    (DebounceRoutine.Start (some k) input).out = input.take k ∧
    (DebounceRoutine.Start (some k) input).err = none :=
  ⟨debounceLoop_some input k h, rfl⟩

/-- Witness for C8: cancellation wins at the second of two messages. -/
theorem debounce_cancel_drops_current_witness :
    1 < ([msgA, msgB] : List Msg).length ∧
      ((DebounceRoutine.Start (some 1) [msgA, msgB]).out = [msgA, msgB].take 1 ∧
        (DebounceRoutine.Start (some 1) [msgA, msgB]).err = none) :=
  ⟨by decide, debounce_cancel_drops_current [msgA, msgB] 1 (by decide)⟩

/-- C9: `ChannelPipe.Close` closes only the done signal and the outbound
queue; the inbound queue is untouched — after any number of closes of a fresh
pipe it is the same still-open capacity-1 queue, and an upstream writer can
still deliver a message into it. -/
theorem close_frames_inbound (p : ChannelPipe) (n : Nat) (m : Msg) :
    ((p.Close).1).inCh = p.inCh ∧
    (ChannelPipe.closeIter n NewChanPipe).inCh = Chan.make 1 ∧
    ((ChannelPipe.closeIter n NewChanPipe).inCh.trySend m).isSome = true := by
  refine ⟨Close_inCh p, ?_, ?_⟩
  · rw [closeIter_inCh]
    rfl
  · rw [closeIter_inCh]
    simp [NewChanPipe, Chan.make, Chan.trySend]

/-- C10: `NewChanPipe` creates inbound and outbound queues of capacity
exactly 1 and an unclosed done signal; with capacity 1 a non-blocking send to
a sub-pipe fails precisely when one undelivered message is already buffered. -/
theorem newChanPipe_capacity_one (buf : List Msg) (m : Msg) :
    NewChanPipe.inCh.cap = 1 ∧ NewChanPipe.outCh.cap = 1 ∧
    NewChanPipe.doneClosed = false ∧
    ((Chan.mk NewChanPipe.inCh.cap buf false).trySend m = none ↔ buf ≠ []) := by
  refine ⟨rfl, rfl, rfl, ?_⟩
  cases buf <;> simp [Chan.trySend, NewChanPipe, Chan.make]

end GoScript
